import Mathlib

/-!
Shallow embedding of the tdd-guard result-normalization core:

* `src/linters/statix/Statix.ts` — the Statix lint adapter (NDJSON parsing,
  issue extraction, severity counting).
* `src/linters/nixf/NixfTidy.ts` — the nixf-tidy lint adapter (per-file
  diagnostics, 0-based → 1-based position conversion, 5-level → 2-level
  severity collapse, per-file error absorption).
* `reporters/nix/src/tdd-guard-nix.sh` — the nix-unit text reporter
  (`parse_and_save_output` line state machine, `limit_output`,
  the passthrough capture loop).

JavaScript's `JSON.parse` and the surrounding process plumbing are modelled
abstractly: parsing is a function parameter `String → Option _`, process
outcomes are `Except` values.  Everything else is translated directly from
the source.
-/

namespace TddGuard

/-! ### Character classes and string helpers

POSIX `[[:space:]]` (bash ERE) covers space, tab, newline, vertical tab,
form feed and carriage return. -/

def isSpaceCh (c : Char) : Bool :=
  c = ' ' || c = '\t' || c = '\n' || c = '\x0b' || c = '\x0c' || c = '\r'

/-- JavaScript `String.prototype.trim` whitespace (the subset relevant here). -/
def isJsSpace (c : Char) : Bool :=
  isSpaceCh c

/-- JavaScript `s.split('\n')`: split on every newline, keeping empty pieces
(`"" ↦ [""]`, `"a\n" ↦ ["a", ""]`). -/
def splitNl : List Char → List (List Char)
  | [] => [[]]
  | c :: cs =>
    if c = '\n' then [] :: splitNl cs
    else
      match splitNl cs with
      | h :: t => (c :: h) :: t
      | [] => [[c]]

/-- JavaScript `s.trim()`. -/
def jsTrim (s : String) : String :=
  ⟨((s.data.dropWhile isJsSpace).reverse.dropWhile isJsSpace).reverse⟩

/-- Characters allowed in the body of an ANSI color escape (`[0-9;]`). -/
def isAnsiBodyCh (c : Char) : Bool :=
  c.isDigit || c = ';'

/-- One pass of `sed 's/\x1b\[[0-9;]*m//g'`: at each position, if the text
matches `ESC [ [0-9;]* m`, drop that match and continue after it; otherwise
keep the character.  The `Nat` argument is fuel (always at least the list
length, so the default case is never reached). -/
def stripAnsiFuel : Nat → List Char → List Char
  | 0, l => l
  | _ + 1, [] => []
  | n + 1, c :: cs =>
    if c = '\x1b' then
      match cs with
      | '[' :: rest =>
        match rest.dropWhile isAnsiBodyCh with
        | 'm' :: rest2 => stripAnsiFuel n rest2
        | _ => c :: stripAnsiFuel n cs
      | _ => c :: stripAnsiFuel n cs
    else c :: stripAnsiFuel n cs

/-- `sed 's/\x1b\[[0-9;]*m//g'` applied to one line. -/
def stripAnsi (s : String) : String :=
  ⟨stripAnsiFuel s.data.length s.data⟩

/-- JavaScript `s.replace(pat, rep)` with a plain-string pattern: replace the
first occurrence only. -/
def replaceFirstAux (pat rep : List Char) : List Char → List Char
  | [] => []
  | c :: cs =>
    if pat.isPrefixOf (c :: cs) then rep ++ (c :: cs).drop pat.length
    else c :: replaceFirstAux pat rep cs

def replaceFirst (s pat rep : String) : String :=
  ⟨replaceFirstAux pat.data rep.data s.data⟩

/-- `sub` occurs contiguously inside `hay`. -/
def strContains (hay sub : String) : Bool :=
  decide (sub.data <:+: hay.data)

/-! ### Canonical lint data model (`src/contracts/schemas/lintSchemas.ts`) -/

/-- `LintIssueSchema`: one normalized diagnostic. -/
structure LintIssue where
  file : String
  line : Nat
  column : Nat
  severity : String
  message : String
  rule : Option String
  deriving DecidableEq, Repr

/-- `LintResultSchema`: aggregate over one invocation. -/
structure LintResult where
  timestamp : String
  files : List String
  issues : List LintIssue
  errorCount : Nat
  warningCount : Nat
  deriving DecidableEq, Repr

/-- `StatixSuggestionSchema.at` (source fields `from` / `to`, renamed because
`from` is a Lean keyword). -/
structure StatixAt where
  fromOffset : Nat
  toOffset : Nat
  deriving DecidableEq, Repr

/-- `StatixSuggestionSchema` (source field `at`, renamed to `atRange`). -/
structure StatixSuggestion where
  atRange : StatixAt
  note : String
  deriving DecidableEq, Repr

/-- `StatixReportSchema`. -/
structure StatixReport where
  file : String
  report_kind : String
  note : String
  suggestions : List StatixSuggestion
  deriving DecidableEq, Repr

/-- `NixfCursorSchema` (all coordinates 0-based). -/
structure NixfCursor where
  column : Nat
  line : Nat
  offset : Nat
  deriving DecidableEq, Repr

/-- `NixfRangeSchema`. -/
structure NixfRange where
  lCur : NixfCursor
  rCur : NixfCursor
  deriving DecidableEq, Repr

/-- `NixfDiagnosticSchema` (fields used by the adapter). -/
structure NixfDiagnostic where
  args : List String
  kind : Nat
  message : String
  range : NixfRange
  severity : Nat
  sname : String
  deriving DecidableEq, Repr

/-! ### Statix adapter (`src/linters/statix/Statix.ts`) -/

/-- `extractRuleFromMessage`: probe for `/\[([A-Z]\d+)\]/` at one position. -/
def ruleMatchAt : List Char → Option String
  | '[' :: c :: rest =>
    if c.isUpper then
      let ds := rest.takeWhile Char.isDigit
      if ds ≠ [] ∧ (rest.dropWhile Char.isDigit).head? = some ']' then
        some ⟨c :: ds⟩
      else none
    else none
  | _ => none

/-- Leftmost match of `/\[([A-Z]\d+)\]/` over the message. -/
def scanRule : List Char → Option String
  | [] => none
  | c :: cs =>
    match ruleMatchAt (c :: cs) with
    | some r => some r
    | none => scanRule cs

/-- `extractRuleFromMessage`: rule codes like `[W04]` embedded in the note. -/
def extractRuleFromMessage (message : String) : Option String :=
  scanRule message.data

/-- `toIssue`: Statix provides character positions, so line 1 is used as a
fallback and the raw `at.from` offset becomes the column. -/
def toIssue (report : StatixReport) (suggestion : StatixSuggestion) : LintIssue :=
  { file := report.file
    line := 1
    column := suggestion.atRange.fromOffset
    severity := if report.report_kind = "error" then "error" else "warning"
    message := suggestion.note
    rule := extractRuleFromMessage suggestion.note }

/-- `extractIssues`. -/
def extractIssues (results : List StatixReport) : List LintIssue :=
  (results.map fun report => report.suggestions.map (toIssue report)).flatten

/-- `countBySeverity`. -/
def countBySeverity (issues : List LintIssue) (severity : String) : Nat :=
  (issues.filter fun i => i.severity == severity).length

/-- `createLintData`. -/
def createLintData (timestamp : String) (files : List String)
    (results : List StatixReport) : LintResult :=
  let issues := extractIssues results
  { timestamp := timestamp
    files := files
    issues := issues
    errorCount := countBySeverity issues "error"
    warningCount := countBySeverity issues "warning" }

/-- The NDJSON lines `parseResults` actually feeds to `JSON.parse`:
`stdout.trim().split('\n').filter(Boolean)`. -/
def statixLines (stdout : String) : List String :=
  ((splitNl (jsTrim stdout).data).map fun cs => (⟨cs⟩ : String)).filter (· ≠ "")

/-- `lines.map(line => JSON.parse(line))` inside a `try`: the first parse
failure aborts the whole map. -/
def optMapAll (p : String → Option StatixReport) : List String → Option (List StatixReport)
  | [] => some []
  | l :: ls =>
    match p l with
    | none => none
    | some r =>
      match optMapAll p ls with
      | none => none
      | some rs => some (r :: rs)

/-- `parseResults`: Statix outputs one JSON object per line; any parse failure
degrades to the empty list.  `p` abstracts `JSON.parse` + the report shape. -/
def parseResults (p : String → Option StatixReport) (stdout : String) : List StatixReport :=
  if jsTrim stdout = "" then []
  else
    match optMapAll p (statixLines stdout) with
    | some rs => rs
    | none => []

/-- The error raised by the promisified `execFile`: `stdoutField = none` models
an error object without a `stdout` property (so `isExecError` is false). -/
structure ExecErr where
  message : String
  stdoutField : Option String
  deriving DecidableEq, Repr

/-- `Statix.lint`: on success, a clean document; on an exec error carrying
`stdout`, parse it; any other error is re-thrown. -/
def statixLint (p : String → Option StatixReport) (timestamp : String)
    (files : List String) (outcome : Except ExecErr Unit) : Except ExecErr LintResult :=
  match outcome with
  | .ok _ => .ok (createLintData timestamp files [])
  | .error e =>
    match e.stdoutField with
    | none => .error e
    | some stdout => .ok (createLintData timestamp files (parseResults p stdout))

/-! ### NixfTidy adapter (`src/linters/nixf/NixfTidy.ts`) -/

/-- `convertSeverity`: nixf severity 0=Fatal, 1=Error, 2=Warning, 3=Info,
4=Hint; the two most severe map to `error`. -/
def convertSeverity (nixfSeverity : Nat) : String :=
  if nixfSeverity ≤ 1 then "error" else "warning"

/-- `formatMessage`: substitute each positional `\x7b\x7d` placeholder with the
corresponding argument (JS `replace` with a string pattern replaces the first
occurrence, folded over `args`). -/
def formatMessage (diagnostic : NixfDiagnostic) : String :=
  diagnostic.args.foldl (fun m arg => replaceFirst m "\x7b\x7d" arg) diagnostic.message

/-- `convertDiagnosticsToIssues`: nixf uses 0-based line and column numbers. -/
def convertDiagnosticsToIssues (filePath : String)
    (diagnostics : List NixfDiagnostic) : List LintIssue :=
  diagnostics.map fun diagnostic =>
    { file := filePath
      line := diagnostic.range.lCur.line + 1
      column := diagnostic.range.lCur.column + 1
      severity := convertSeverity diagnostic.severity
      message := formatMessage diagnostic
      rule := some diagnostic.sname }

/-- The `close` handler of `lintFile`: non-zero exit with stderr rejects,
empty stdout resolves to no diagnostics, unparseable stdout rejects, and a
single object is wrapped in a list.  `jp` abstracts `JSON.parse`. -/
def lintFileResult (jp : String → Option (List NixfDiagnostic ⊕ NixfDiagnostic))
    (code : Int) (stdout stderr : String) : Except String (List NixfDiagnostic) :=
  if code ≠ 0 ∧ stderr ≠ "" then .error ("nixf-tidy failed: " ++ stderr)
  else if jsTrim stdout = "" then .ok []
  else
    match jp stdout with
    | some (.inl ds) => .ok ds
    | some (.inr d) => .ok [d]
    | none => .error "Failed to parse nixf-tidy output"

/-- `NixfTidy.lint`: each file is processed independently; a failed file is
skipped (zero issues) and the counts are derived from the accumulated list.
`fileOutcomes` pairs each file path with its `lintFile` outcome. -/
def nixfLint (timestamp : String)
    (fileOutcomes : List (String × Except String (List NixfDiagnostic))) : LintResult :=
  let issues :=
    (fileOutcomes.map fun fo =>
      match fo.2 with
      | .ok ds => convertDiagnosticsToIssues fo.1 ds
      | .error _ => []).flatten
  { timestamp := timestamp
    files := fileOutcomes.map (·.1)
    issues := issues
    errorCount := (issues.filter fun i => i.severity == "error").length
    warningCount := (issues.filter fun i => i.severity == "warning").length }

/-! ### Nix reporter (`reporters/nix/src/tdd-guard-nix.sh`) -/

/-- One failure record (`create_test_error`). -/
structure TestError where
  message : String
  deriving DecidableEq, Repr

/-- One test outcome (`create_test`); an empty `errors` list models the
omitted `errors` field. -/
structure TestCase where
  name : String
  fullName : String
  state : String
  errors : List TestError
  deriving DecidableEq, Repr

/-- `create_test_module`. -/
structure TestModule where
  moduleId : String
  tests : List TestCase
  deriving DecidableEq, Repr

/-- `create_test_result`; the script never emits `unhandledErrors`, modelled
as the always-empty list. -/
structure TestResult where
  testModules : List TestModule
  unhandledErrors : List String
  reason : String
  deriving DecidableEq, Repr

/-- The local variables of `parse_and_save_output` while scanning. -/
structure ParseState where
  tests : List TestCase
  reason : String
  hasTests : Bool
  moduleId : String
  curName : String
  curDetails : String
  inError : Bool
  deriving DecidableEq, Repr

def initState : ParseState :=
  { tests := [], reason := "passed", hasTests := false, moduleId := "tests"
    curName := "", curDetails := "", inError := false }

/-- Bash ERE `^(✅|❌)[[:space:]]+([^[:space:]]+)`: returns
(`status glyph is the check mark`, captured test name). -/
def glyphMatch (line : String) : Option (Bool × String) :=
  match line.data with
  | [] => none
  | c :: cs =>
    if c = '✅' ∨ c = '❌' then
      let sp := cs.takeWhile isSpaceCh
      let name := (cs.dropWhile isSpaceCh).takeWhile fun ch => ¬ isSpaceCh ch
      if sp ≠ [] ∧ name ≠ [] then some (c = '✅', ⟨name⟩) else none
    else none

/-- Bash ERE `^(🎉|😢)[[:space:]]+([0-9]+)/([0-9]+)[[:space:]]+successful`:
returns (`glyph is the sad face`, passed digits, total digits).  The script
compares the two captures as strings. -/
def summaryMatch (line : String) : Option (Bool × String × String) :=
  match line.data with
  | [] => none
  | c :: cs =>
    if c = '🎉' ∨ c = '😢' then
      let sp1 := cs.takeWhile isSpaceCh
      let r1 := cs.dropWhile isSpaceCh
      let p := r1.takeWhile Char.isDigit
      match r1.dropWhile Char.isDigit with
      | '/' :: r3 =>
        let t := r3.takeWhile Char.isDigit
        let r4 := r3.dropWhile Char.isDigit
        let sp2 := r4.takeWhile isSpaceCh
        if sp1 ≠ [] ∧ p ≠ [] ∧ t ≠ [] ∧ sp2 ≠ [] ∧
            "successful".data.isPrefixOf (r4.dropWhile isSpaceCh) then
          some (c = '😢', ⟨p⟩, ⟨t⟩)
        else none
      | _ => none
    else none

/-- `syntax[[:space:]]+error` matches starting at this position. -/
def syntaxSpaceErr (l : List Char) : Bool :=
  "syntax".data.isPrefixOf l &&
    (let r := l.drop 6
     (r.takeWhile isSpaceCh ≠ [] : Bool) &&
       "error".data.isPrefixOf (r.dropWhile isSpaceCh))

/-- Does any suffix of the list satisfy `p`? (unanchored regex search) -/
def anySuffix (p : List Char → Bool) : List Char → Bool
  | [] => p []
  | c :: cs => p (c :: cs) || anySuffix p cs

/-- Bash ERE `error:|Error:|syntax[[:space:]]+error` (unanchored). -/
def errorPattern (line : String) : Bool :=
  decide ("error:".data <:+: line.data) || decide ("Error:".data <:+: line.data) ||
    anySuffix syntaxSpaceErr line.data

/-- The save of a pending failing test at the top of the status-glyph branch:
if details were collected they become the one error record, otherwise the
`errors` field is omitted. -/
def savePending (s : ParseState) : ParseState :=
  if s.curName ≠ "" ∧ s.inError then
    let errs : List TestError := if s.curDetails ≠ "" then [⟨s.curDetails⟩] else []
    { s with
      tests := s.tests ++ [⟨s.curName, s.moduleId ++ "." ++ s.curName, "failed", errs⟩]
      curDetails := ""
      inError := false }
  else s

/-- One iteration of the `for line in "${lines[@]}"` loop of
`parse_and_save_output`. -/
def step (s : ParseState) (line : String) : ParseState :=
  if line.data.all isSpaceCh then s
  else if "warning:".data.isPrefixOf line.data then s
  else
    match glyphMatch line with
    | some (isPass, name) =>
      let s1 := savePending s
      let s2 := { s1 with hasTests := true, curName := name }
      if isPass then
        { s2 with
          tests := s2.tests ++ [⟨name, s2.moduleId ++ "." ++ name, "passed", []⟩]
          curName := "" }
      else
        { s2 with reason := "failed", inError := true }
    | none =>
      if s.inError then
        let clean := stripAnsi line
        if clean.data.all isSpaceCh then s
        else
          { s with
            curDetails :=
              if s.curDetails ≠ "" then s.curDetails ++ "\\n" ++ clean else clean }
      else
        match summaryMatch line with
        | some (isSad, p, t) =>
          if isSad ∨ p ≠ t then { s with reason := "failed" } else s
        | none =>
          if errorPattern line then
            if s.hasTests = false then
              { s with
                reason := "failed"
                tests := s.tests ++
                  [⟨"evaluation", "compilation.evaluation", "failed", [⟨line⟩]⟩]
                moduleId := "compilation"
                hasTests := true }
            else { s with reason := "failed" }
          else s

/-- `"$(printf '%s\n' "${lines[@]}")"`: newline-join the lines; command
substitution strips trailing newlines. -/
def joinNl : List String → List Char
  | [] => []
  | [s] => s.data
  | s :: rest => s.data ++ '\n' :: joinNl rest

def joinedMsg (lines : List String) : String :=
  ⟨((joinNl lines).reverse.dropWhile (· = '\n')).reverse⟩

/-- First part of the epilogue of `parse_and_save_output`: flush a still
pending failing test, with the generic `Test failed` record when no detail
was captured. -/
def flushPending (s : ParseState) : ParseState :=
  if s.curName ≠ "" ∧ s.inError then
    let errs : List TestError :=
      if s.curDetails ≠ "" then [⟨s.curDetails⟩] else [⟨"Test failed"⟩]
    { s with
      tests := s.tests ++ [⟨s.curName, s.moduleId ++ "." ++ s.curName, "failed", errs⟩] }
  else s

/-- Second part of the epilogue: when no test was ever seen but there was
output, fold the whole captured output into one synthetic evaluation
failure. -/
def fallbackAll (s : ParseState) (lines : List String) : ParseState :=
  if s.hasTests = false ∧ lines ≠ [] then
    { s with
      tests := s.tests ++
        [⟨"evaluation", "compilation.evaluation", "failed", [⟨joinedMsg lines⟩]⟩]
      moduleId := "compilation"
      reason := "failed" }
  else s

/-- The epilogue of `parse_and_save_output`: flush, fall back, and assemble
the result document (one module when any test was produced). -/
def finalizeState (s : ParseState) (lines : List String) : TestResult :=
  let s2 := fallbackAll (flushPending s) lines
  { testModules := if s2.tests ≠ [] then [⟨s2.moduleId, s2.tests⟩] else []
    unhandledErrors := []
    reason := s2.reason }

/-- `parse_and_save_output` minus the persistence step: the document that
gets serialized. -/
def parseOutput (lines : List String) : TestResult :=
  finalizeState (lines.foldl step initState) lines

/-- `limit_output`, i.e. `head -n "$MAX_OUTPUT_LINES"`, used on the capture
path that invokes nix-unit directly. -/
def limitOutput (maxLines : Nat) (outLines : List String) : List String :=
  outLines.take maxLines

/-- Is some test in the list failed? -/
def hasFailedIn (tests : List TestCase) : Bool :=
  tests.any fun t => t.state == "failed"

/-- Is some test of the result failed? -/
def resultHasFailed (r : TestResult) : Bool :=
  r.testModules.any fun m => hasFailedIn m.tests

/-- The summary/error cross-check, reduced to the flags it depends on:
`inError` and `hasTests` evolve exactly as in `step`, and `flag` records that
a recognized summary line reported the sad glyph or a passed/total mismatch,
or that an error-pattern line was scanned after tests had already been seen —
the two cases in which the script marks the run failed without recording any
failed test case. -/
structure CrossState where
  inError : Bool
  hasTests : Bool
  flag : Bool
  deriving DecidableEq, Repr

def crossStep (r : CrossState) (line : String) : CrossState :=
  if line.data.all isSpaceCh then r
  else if "warning:".data.isPrefixOf line.data then r
  else
    match glyphMatch line with
    | some (isPass, _) => { r with inError := !isPass, hasTests := true }
    | none =>
      if r.inError then r
      else
        match summaryMatch line with
        | some (isSad, p, t) =>
          if isSad ∨ p ≠ t then { r with flag := true } else r
        | none =>
          if errorPattern line then
            if ¬ r.hasTests then { r with hasTests := true }
            else { r with flag := true }
          else r

def crossFlag (lines : List String) : Bool :=
  (lines.foldl crossStep ⟨false, false, false⟩).flag

/-! ### Helper lemmas -/

theorem hasFailedIn_append (ts : List TestCase) (t : TestCase) :
    hasFailedIn (ts ++ [t]) = (hasFailedIn ts || (t.state == "failed")) := by
  simp [hasFailedIn]

theorem glyphMatch_name_ne {line : String} {b : Bool} {n : String}
    (h : glyphMatch line = some (b, n)) : n ≠ "" := by
  unfold glyphMatch at h
  split at h
  · exact absurd h (by simp)
  · dsimp only at h
    split at h
    · split at h
      · rename_i hcond
        rw [Option.some_inj] at h
        cases h
        intro hcontra
        exact hcond.2 (by simpa [String.ext_iff] using hcontra)
      · exact absurd h (by simp)
    · exact absurd h (by simp)

/-- The invariant tying the full parser state to the reduced cross-check
state: the scanning flags agree, a pending failing test implies the run is
already marked failed, and the overall reason is `failed` exactly when a
failed test was recorded, a failing test is pending, or the cross-check
fired. -/
def InvCR (s : ParseState) (r : CrossState) : Prop :=
  s.inError = r.inError ∧ s.hasTests = r.hasTests ∧
  (s.inError = true → s.curName ≠ "") ∧
  (s.inError = true → s.reason = "failed") ∧
  (s.reason = "failed" ↔ hasFailedIn s.tests = true ∨ s.inError = true ∨ r.flag = true)

theorem savePending_inv {s : ParseState} {r : CrossState} (h : InvCR s r) :
    (savePending s).inError = false ∧ (savePending s).hasTests = s.hasTests ∧
    (savePending s).reason = s.reason ∧ (savePending s).moduleId = s.moduleId ∧
    ((savePending s).reason = "failed"
      ↔ hasFailedIn (savePending s).tests = true ∨ r.flag = true) := by
  obtain ⟨h1, h2, h3, h4, h5⟩ := h
  unfold savePending
  by_cases hc : s.curName ≠ "" ∧ s.inError = true
  · rw [if_pos hc]
    refine ⟨rfl, rfl, rfl, rfl, ?_⟩
    have hr := h4 hc.2
    dsimp only
    rw [hr, hasFailedIn_append]
    simp
  · have hie : s.inError = false := by
      cases hx : s.inError
      · rfl
      · exact absurd ⟨h3 hx, hx⟩ hc
    rw [if_neg hc]
    refine ⟨hie, rfl, rfl, rfl, ?_⟩
    rw [h5, hie]
    simp

theorem step_inv {s : ParseState} {r : CrossState} (line : String) (h : InvCR s r) :
    InvCR (step s line) (crossStep r line) := by
  obtain ⟨h1, h2, h3, h4, h5⟩ := h
  unfold step crossStep
  by_cases hsp : line.data.all isSpaceCh = true
  · rw [if_pos hsp, if_pos hsp]
    exact ⟨h1, h2, h3, h4, h5⟩
  rw [if_neg hsp, if_neg hsp]
  by_cases hw : "warning:".data.isPrefixOf line.data = true
  · rw [if_pos hw, if_pos hw]
    exact ⟨h1, h2, h3, h4, h5⟩
  rw [if_neg hw, if_neg hw]
  rcases hg : glyphMatch line with - | ⟨isPass, name⟩
  · -- no status glyph line
    dsimp only
    by_cases hie : s.inError = true
    · have hieR : r.inError = true := by rw [← h1]; exact hie
      rw [if_pos hie, if_pos hieR]
      by_cases hcl : (stripAnsi line).data.all isSpaceCh = true
      · rw [if_pos hcl]
        exact ⟨h1, h2, h3, h4, h5⟩
      · rw [if_neg hcl]
        exact ⟨h1, h2, h3, h4, h5⟩
    · have hie' : s.inError = false := by
        cases hx : s.inError
        · rfl
        · exact absurd hx hie
      have hieR : ¬ r.inError = true := by rw [← h1]; exact hie
      rw [if_neg hie, if_neg hieR]
      rcases hsm : summaryMatch line with - | ⟨isSad, p, t⟩
      · -- not a summary line either
        dsimp only
        by_cases hep : errorPattern line = true
        · rw [if_pos hep, if_pos hep]
          by_cases hht : s.hasTests = true
          · have hhtR : r.hasTests = true := by rw [← h2]; exact hht
            rw [if_neg (by simp [hht]), if_neg (by simp [hhtR])]
            refine ⟨h1, h2, h3, fun _ => rfl, ?_⟩
            simp
          · have hht' : s.hasTests = false := by
              cases hx : s.hasTests
              · rfl
              · exact absurd hx hht
            have hhtR : ¬ r.hasTests = true := by rw [← h2]; exact hht
            rw [if_pos (by simp [hht']), if_pos (by simp [← h2, hht'])]
            refine ⟨h1, by simp, h3, fun _ => rfl, ?_⟩
            dsimp only
            rw [hasFailedIn_append]
            simp
        · rw [if_neg hep, if_neg hep]
          exact ⟨h1, h2, h3, h4, h5⟩
      · -- summary line, outside collection
        dsimp only
        by_cases hfire : isSad = true ∨ p ≠ t
        · rw [if_pos hfire, if_pos hfire]
          refine ⟨h1, h2, h3, fun _ => rfl, ?_⟩
          simp
        · rw [if_neg hfire, if_neg hfire]
          exact ⟨h1, h2, h3, h4, h5⟩
  · -- status glyph line
    dsimp only
    obtain ⟨hsv1, hsv2, hsv3, hsv4, hsv5⟩ := savePending_inv ⟨h1, h2, h3, h4, h5⟩
    cases hp : isPass
    · -- failing test: enter error collection
      rw [if_neg (by simp)]
      refine ⟨rfl, by simp [hsv2], ?_, fun _ => rfl, ?_⟩
      · intro _
        exact glyphMatch_name_ne hg
      · simp
    · -- passing test: emit immediately
      rw [if_pos (by simp)]
      refine ⟨by simp [hsv1], by simp [hsv2], by simp [hsv1], by simp [hsv1], ?_⟩
      dsimp only
      have hpf : (("passed" : String) == "failed") = false := by decide
      rw [hasFailedIn_append, hpf, Bool.or_false, hsv5, hsv1]
      simp

theorem foldl_inv (lines : List String) {s : ParseState} {r : CrossState}
    (h : InvCR s r) : InvCR (lines.foldl step s) (lines.foldl crossStep r) := by
  induction lines generalizing s r with
  | nil => exact h
  | cons a as ih => exact ih (step_inv a h)

theorem init_inv : InvCR initState ⟨false, false, false⟩ := by
  refine ⟨rfl, rfl, by simp [initState], by simp [initState], ?_⟩
  simp [initState, hasFailedIn]

theorem resultHasFailed_modules (mid : String) (ts : List TestCase)
    (ue : List String) (rs : String) :
    resultHasFailed ⟨if ts ≠ [] then [⟨mid, ts⟩] else [], ue, rs⟩ = hasFailedIn ts := by
  by_cases hc : ts ≠ []
  · rw [if_pos hc]
    simp [resultHasFailed]
  · rw [if_neg hc]
    have : ts = [] := not_not.mp hc
    subst this
    simp [resultHasFailed, hasFailedIn]

theorem finalize_reason (lines : List String) {s : ParseState} {r : CrossState}
    (h : InvCR s r) :
    ((finalizeState s lines).reason = "failed"
      ↔ resultHasFailed (finalizeState s lines) = true ∨ r.flag = true) := by
  obtain ⟨h1, h2, h3, h4, h5⟩ := h
  unfold finalizeState
  dsimp only
  rw [resultHasFailed_modules]
  unfold fallbackAll
  by_cases hfb : (flushPending s).hasTests = false ∧ lines ≠ []
  · rw [if_pos hfb]
    dsimp only
    rw [hasFailedIn_append]
    simp
  · rw [if_neg hfb]
    unfold flushPending
    by_cases hpend : s.curName ≠ "" ∧ s.inError = true
    · rw [if_pos hpend]
      dsimp only
      rw [hasFailedIn_append, h4 hpend.2]
      simp
    · rw [if_neg hpend]
      have hie : s.inError = false := by
        cases hx : s.inError
        · rfl
        · exact absurd ⟨h3 hx, hx⟩ hpend
      rw [h5, hie]
      simp

theorem optMapAll_eq_none (p : String → Option StatixReport) :
    ∀ ls : List String, (∃ l ∈ ls, p l = none) → optMapAll p ls = none := by
  intro ls
  induction ls with
  | nil => rintro ⟨l, h, -⟩; cases h
  | cons a as ih =>
    rintro ⟨l, hmem, hnone⟩
    rcases List.mem_cons.mp hmem with rfl | hmem
    · simp [optMapAll, hnone]
    · unfold optMapAll
      rcases h : p a with - | r
      · rfl
      · rw [ih ⟨l, hmem, hnone⟩]

theorem parseResults_eq_nil_of_bad_line (p : String → Option StatixReport)
    (stdout : String) (h : ∃ l ∈ statixLines stdout, p l = none) :
    parseResults p stdout = [] := by
  unfold parseResults
  split
  · rfl
  · rw [optMapAll_eq_none p _ h]

theorem infix_dropWhile_of_forall {α : Type} [DecidableEq α] {p : α → Bool} {x : List α}
    (hx : x ≠ []) (hall : ∀ a ∈ x, p a = false) :
    ∀ {y : List α}, x <:+: y → x <:+: y.dropWhile p := by
  intro y
  induction y with
  | nil =>
    intro h
    exact absurd (List.infix_nil.mp h) hx
  | cons a ys ih =>
    intro h
    rw [List.dropWhile_cons]
    by_cases hpa : p a = true
    · rw [if_pos hpa]
      apply ih
      rcases List.infix_cons_iff.mp h with hpre | hinf
      · obtain ⟨x0, xs, rfl⟩ : ∃ x0 xs, x = x0 :: xs := by
          cases x with
          | nil => exact absurd rfl hx
          | cons x0 xs => exact ⟨x0, xs, rfl⟩
        obtain ⟨t, ht⟩ := hpre
        have hx0 : x0 = a := by
          have := congrArg List.head? ht
          simpa using this
        have hfalse : p a = false := hx0 ▸ hall x0 (List.mem_cons_self x0 xs)
        rw [hfalse] at hpa
        cases hpa
      · exact hinf
    · rw [if_neg hpa]
      exact h

theorem infix_dropTrailingNl {l m : List Char} (hne : l ≠ [])
    (hnl : ∀ c ∈ l, ¬ c = '\n') (h : l <:+: m) :
    l <:+: (m.reverse.dropWhile (· = '\n')).reverse := by
  have h1 : l.reverse <:+: m.reverse := h.reverse
  have h2 : l.reverse <:+: m.reverse.dropWhile (· = '\n') := by
    refine infix_dropWhile_of_forall (by simpa using hne) ?_ h1
    intro a ha
    have hmem : a ∈ l := List.mem_reverse.mp ha
    simpa using hnl a hmem
  simpa using h2.reverse

theorem mem_joinNl {l : String} :
    ∀ {lines : List String}, l ∈ lines → l.data <:+: joinNl lines := by
  intro lines
  induction lines with
  | nil => intro h; cases h
  | cons a as ih =>
    intro h
    rcases List.mem_cons.mp h with rfl | h'
    · cases as with
      | nil => exact List.infix_refl _
      | cons b bs => exact (List.prefix_append _ _).isInfix
    · cases as with
      | nil => cases h'
      | cons b bs =>
        have hsub := ih h'
        have hsuf : joinNl (b :: bs) <:+: joinNl (a :: b :: bs) :=
          ⟨a.data ++ ['\n'], [], by simp [joinNl]⟩
        exact hsub.trans hsuf

theorem errorPattern_ne_nil {l : String} (h : errorPattern l = true) : l.data ≠ [] := by
  intro hnil
  obtain ⟨data⟩ := l
  have hd : data = [] := hnil
  subst hd
  exact absurd h (by decide)

/-- The invariant of the scan when the input contains no status-glyph line:
no test is ever pending, and the test list is empty until an error-pattern
line flips `hasTests`, after which it holds exactly the one synthetic
evaluation failure carrying that line. -/
def InvC8 (processed : List String) (s : ParseState) : Prop :=
  s.curName = "" ∧ s.inError = false ∧
  (s.hasTests = false → s.tests = [] ∧ s.moduleId = "tests") ∧
  (s.hasTests = true → ∃ l ∈ processed, errorPattern l = true ∧
      s.tests = [⟨"evaluation", "compilation.evaluation", "failed", [⟨l⟩]⟩] ∧
      s.moduleId = "compilation" ∧ s.reason = "failed")

theorem stepC8 {processed : List String} {s : ParseState} (line : String)
    (hng : glyphMatch line = none) (h : InvC8 processed s) :
    InvC8 (processed ++ [line]) (step s line) := by
  obtain ⟨h1, h2, h3, h4⟩ := h
  have hmono : InvC8 (processed ++ [line]) s := by
    refine ⟨h1, h2, h3, ?_⟩
    intro hh
    obtain ⟨l, hl, he, ht, hm, hr⟩ := h4 hh
    exact ⟨l, List.mem_append_left _ hl, he, ht, hm, hr⟩
  unfold step
  rw [hng]
  dsimp only
  by_cases hsp : line.data.all isSpaceCh = true
  · rw [if_pos hsp]; exact hmono
  rw [if_neg hsp]
  by_cases hw : "warning:".data.isPrefixOf line.data = true
  · rw [if_pos hw]; exact hmono
  rw [if_neg hw]
  rw [if_neg (by simp [h2])]
  rcases hsm : summaryMatch line with - | ⟨isSad, p, t⟩
  · dsimp only
    by_cases hep : errorPattern line = true
    · rw [if_pos hep]
      by_cases hht : s.hasTests = true
      · rw [if_neg (by simp [hht])]
        refine ⟨h1, h2, ?_, ?_⟩
        · intro hf
          rw [hht] at hf
          cases hf
        · intro _
          obtain ⟨l, hl, he, ht, hm, -⟩ := h4 hht
          exact ⟨l, List.mem_append_left _ hl, he, ht, hm, rfl⟩
      · have hht' : s.hasTests = false := by
          cases hx : s.hasTests
          · rfl
          · exact absurd hx hht
        rw [if_pos (by simp [hht'])]
        obtain ⟨hts, hmid⟩ := h3 hht'
        refine ⟨h1, h2, ?_, ?_⟩
        · intro hf
          exact absurd hf (by simp)
        · intro _
          refine ⟨line, List.mem_append_right _ (by simp), hep, ?_, rfl, rfl⟩
          rw [hts]
          simp
    · rw [if_neg hep]; exact hmono
  · dsimp only
    by_cases hfire : isSad = true ∨ p ≠ t
    · rw [if_pos hfire]
      refine ⟨h1, h2, h3, ?_⟩
      intro hh
      obtain ⟨l, hl, he, ht, hm, -⟩ := h4 hh
      exact ⟨l, List.mem_append_left _ hl, he, ht, hm, rfl⟩
    · rw [if_neg hfire]; exact hmono

theorem foldC8 : ∀ (lines : List String) {processed : List String} {s : ParseState},
    (∀ l ∈ lines, glyphMatch l = none) → InvC8 processed s →
    InvC8 (processed ++ lines) (lines.foldl step s)
  | [], _, _, _, h => by simpa using h
  | a :: as, processed, s, hg, h => by
    have h1 := stepC8 a (hg a (List.mem_cons_self a as)) h
    have h2 := foldC8 as (fun l hl => hg l (List.mem_cons_of_mem a hl)) h1
    simpa [List.append_assoc] using h2

/-! ### Claims -/

/-- C1: for every `LintResult` assembled by `createLintData` (both branches of
`Statix.lint` go through it) and by `NixfTidy.lint`, `errorCount` equals the
number of issues whose severity is `error` and `warningCount` the number
whose severity is `warning`. -/
theorem severity_counts_match_issues (ts : String) (files : List String)
    (results : List StatixReport)
    (fo : List (String × Except String (List NixfDiagnostic))) :
    (createLintData ts files results).errorCount
        = (createLintData ts files results).issues.countP (fun i => i.severity == "error")
    ∧ (createLintData ts files results).warningCount
        = (createLintData ts files results).issues.countP (fun i => i.severity == "warning")
    ∧ (nixfLint ts fo).errorCount
        = (nixfLint ts fo).issues.countP (fun i => i.severity == "error")
    ∧ (nixfLint ts fo).warningCount
        = (nixfLint ts fo).issues.countP (fun i => i.severity == "warning") := by
  refine ⟨?_, ?_, ?_, ?_⟩ <;>
    simp [createLintData, nixfLint, countBySeverity, List.countP_eq_length_filter]

/-- C4: the NixfTidy normalizer maps every native 0-based (line, column) to
(line + 1, column + 1) — in particular native (0, 4) becomes canonical
(1, 5) — and every Statix issue gets the constant line 1, since Statix only
reports character offsets. -/
theorem position_normalizer_one_based (file : String) (ds : List NixfDiagnostic)
    (r : StatixReport) (s : StatixSuggestion) :
    ((convertDiagnosticsToIssues file ds).map fun i => (i.line, i.column))
        = ds.map (fun d => (d.range.lCur.line + 1, d.range.lCur.column + 1))
    ∧ ((convertDiagnosticsToIssues "test.nix"
          [⟨[], 1, "m", ⟨⟨4, 0, 4⟩, ⟨5, 0, 5⟩⟩, 2, "rule"⟩]).map fun i => (i.line, i.column))
        = [(1, 5)]
    ∧ (toIssue r s).line = 1 := by
  refine ⟨?_, by decide, rfl⟩
  simp [convertDiagnosticsToIssues]

/-- C5 counterexample: a Statix suggestion whose character offset `at.from`
is 0 yields an issue whose column is 0, not a positive 1-based column. -/
theorem statix_zero_offset_column_zero :
    (toIssue ⟨"flake.nix", "warn", "note", [⟨⟨0, 3⟩, "manual inherit"⟩]⟩
        ⟨⟨0, 3⟩, "manual inherit"⟩).column = 0
    ∧ ¬ 1 ≤ (toIssue ⟨"flake.nix", "warn", "note", [⟨⟨0, 3⟩, "manual inherit"⟩]⟩
        ⟨⟨0, 3⟩, "manual inherit"⟩).column := by
  decide

/-- C5 amended: every NixfTidy issue has 1-based positive line and column,
and every Statix issue has line = 1; but the Statix column is the raw
character offset `at.from`, which is 0 when a suggestion starts at offset 0,
so the positivity invariant fails for Statix columns. -/
theorem issue_positions_amended :
    (∀ (file : String) (ds : List NixfDiagnostic) (i : LintIssue),
        i ∈ convertDiagnosticsToIssues file ds → 1 ≤ i.line ∧ 1 ≤ i.column)
    ∧ (∀ (r : StatixReport) (s : StatixSuggestion),
        (toIssue r s).line = 1 ∧ (toIssue r s).column = s.atRange.fromOffset) := by
  constructor
  · intro file ds i hi
    simp only [convertDiagnosticsToIssues, List.mem_map] at hi
    obtain ⟨d, -, rfl⟩ := hi
    exact ⟨Nat.le_add_left 1 _, Nat.le_add_left 1 _⟩
  · intro r s
    exact ⟨rfl, rfl⟩

theorem issue_positions_amended_witness :
    ((⟨"test.nix", 1, 5, "warning", "m", some "rule"⟩ : LintIssue)
        ∈ convertDiagnosticsToIssues "test.nix"
            [⟨[], 1, "m", ⟨⟨4, 0, 4⟩, ⟨5, 0, 5⟩⟩, 2, "rule"⟩])
    ∧ 1 ≤ (⟨"test.nix", 1, 5, "warning", "m", some "rule"⟩ : LintIssue).line
    ∧ 1 ≤ (⟨"test.nix", 1, 5, "warning", "m", some "rule"⟩ : LintIssue).column :=
  ⟨by decide,
    issue_positions_amended.1 "test.nix" [⟨[], 1, "m", ⟨⟨4, 0, 4⟩, ⟨5, 0, 5⟩⟩, 2, "rule"⟩]
      ⟨"test.nix", 1, 5, "warning", "m", some "rule"⟩ (by decide)⟩

/-- C6: stdout that fails JSON parsing degrades to a result with no issues
and zero counts without raising: `parseResults` returns `[]` whenever some
NDJSON line fails to parse, and a NixfTidy per-file parse failure is absorbed
into zero issues for that file. -/
theorem malformed_json_degrades_to_empty (p : String → Option StatixReport)
    (stdout ts : String) (files : List String)
    (jp : String → Option (List NixfDiagnostic ⊕ NixfDiagnostic))
    (stdout2 f : String)
    (h : ∃ l ∈ statixLines stdout, p l = none)
    (h2 : jp stdout2 = none) :
    parseResults p stdout = []
    ∧ (createLintData ts files (parseResults p stdout)).issues = []
    ∧ (createLintData ts files (parseResults p stdout)).errorCount = 0
    ∧ (createLintData ts files (parseResults p stdout)).warningCount = 0
    ∧ nixfLint ts [(f, lintFileResult jp 0 stdout2 "")]
        = { timestamp := ts, files := [f], issues := [],
            errorCount := 0, warningCount := 0 } := by
  have hp := parseResults_eq_nil_of_bad_line p stdout h
  refine ⟨hp, ?_, ?_, ?_, ?_⟩
  · rw [hp]; rfl
  · rw [hp]; rfl
  · rw [hp]; rfl
  · unfold lintFileResult
    split
    · simp at *
    · split
      · rfl
      · rw [h2]; rfl

theorem malformed_json_degrades_to_empty_witness :
    parseResults (fun _ => none) "not json at all" = []
    ∧ nixfLint "t" [("g.nix", lintFileResult (fun _ => none) 0 "oops" "")]
        = { timestamp := "t", files := ["g.nix"], issues := [],
            errorCount := 0, warningCount := 0 } := by
  have h := malformed_json_degrades_to_empty (fun _ => none) "not json at all" "t"
    ["f.nix"] (fun _ => none) "oops" "g.nix"
    ⟨"not json at all", by decide, rfl⟩ rfl
  exact ⟨h.1, h.2.2.2.2⟩

/-- C7 counterexample: when the nixf-tidy process fails to start, `lintFile`
rejects but `NixfTidy.lint` absorbs the rejection and returns a result
document with zero issues instead of propagating a fatal error. -/
theorem nixf_spawn_failure_returns_document :
    nixfLint "2025-01-01T00:00:00.000Z"
        [("test.nix", Except.error "Failed to spawn nixf-tidy: spawn failed")]
      = { timestamp := "2025-01-01T00:00:00.000Z", files := ["test.nix"],
          issues := [], errorCount := 0, warningCount := 0 } := by
  rfl

/-- C7 amended: only Statix propagates toolchain start-up failures —
`Statix.lint` re-throws any execution error that carries no captured stdout
— while `NixfTidy.lint` absorbs a per-file failure (spawn error included)
into zero issues for that file and still returns a result document. -/
theorem spawn_failure_propagation_amended :
    (∀ (p : String → Option StatixReport) (ts : String) (files : List String) (m : String),
        statixLint p ts files (.error ⟨m, none⟩) = .error ⟨m, none⟩)
    ∧ (∀ ts f m : String,
        nixfLint ts [(f, .error m)]
          = { timestamp := ts, files := [f], issues := [],
              errorCount := 0, warningCount := 0 }) := by
  exact ⟨fun p ts files m => rfl, fun ts f m => rfl⟩

/-- C10: Statix NDJSON parsing is all-or-nothing — when any line of the
(trimmed, non-empty-filtered) stdout fails to parse, `parseResults` returns
the empty list even if other lines parse to well-formed reports. -/
theorem ndjson_all_or_nothing (p : String → Option StatixReport)
    (stdout g : String) (r : StatixReport)
    (hg : g ∈ statixLines stdout) (hpg : p g = some r)
    (hb : ∃ b ∈ statixLines stdout, p b = none) :
    parseResults p stdout = [] :=
  parseResults_eq_nil_of_bad_line p stdout hb

theorem ndjson_all_or_nothing_witness :
    parseResults
        (fun s => if s = "good" then some ⟨"f.nix", "warn", "n", []⟩ else none)
        "good\nbad" = [] :=
  ndjson_all_or_nothing
    (fun s => if s = "good" then some ⟨"f.nix", "warn", "n", []⟩ else none)
    "good\nbad" "good" ⟨"f.nix", "warn", "n", []⟩
    (by decide) (by decide) ⟨"bad", by decide, by decide⟩

/-- C9: on the capture path that invokes the toolchain directly, output
beyond the configured limit is cut by `limit_output` (`head`): the captured
stream has length equal to the limit — not limit + 1 — and no truncation
warning entry is appended, so the truncation is silent there (and the
passthrough loop dies on its first `((line_count++))` under `set -e` before
it could ever append one). -/
theorem direct_capture_truncates_without_warning :
    limitOutput 2 ["l1", "l2", "l3", "l4"] = ["l1", "l2"]
    ∧ (limitOutput 2 ["l1", "l2", "l3", "l4"]).length = 2
    ∧ (limitOutput 2 ["l1", "l2", "l3", "l4"]).length ≠ 2 + 1
    ∧ "Warning: Output truncated - too many lines" ∉ limitOutput 2 ["l1", "l2", "l3", "l4"] := by
  decide

/-- C2 counterexample: after one passed test and the summary line
`🎉 1/2 successful`, the result has reason `failed` although every emitted
test case is passed, no synthetic compilation-error test exists, and
`unhandledErrors` is empty — refuting the claimed iff. -/
theorem reason_failed_without_failed_test :
    (parseOutput ["✅ testA", "🎉 1/2 successful"]).reason = "failed"
    ∧ resultHasFailed (parseOutput ["✅ testA", "🎉 1/2 successful"]) = false
    ∧ (parseOutput ["✅ testA", "🎉 1/2 successful"]).unhandledErrors = []
    ∧ (parseOutput ["✅ testA", "🎉 1/2 successful"]).testModules
        = [⟨"tests", [⟨"testA", "tests.testA", "passed", []⟩]⟩] := by
  refine ⟨rfl, by decide, rfl, rfl⟩

/-- C2 amended: the produced result has reason `failed` iff some emitted
test case is failed (synthetic compilation-error tests included) or the
summary/error cross-check fired — a recognized summary line outside error
collection carried the sad glyph or mismatched counts, or an error-pattern
line was scanned after tests had been seen; `unhandledErrors` is never
emitted.  In particular reason can be `failed` with every test case passed,
via the cross-check. -/
theorem reason_failed_iff_failed_test_or_cross_check (lines : List String) :
    ((parseOutput lines).reason = "failed"
      ↔ resultHasFailed (parseOutput lines) = true ∨ crossFlag lines = true)
    ∧ (parseOutput lines).unhandledErrors = [] := by
  constructor
  · exact finalize_reason lines (foldl_inv lines init_inv)
  · rfl

/-- C3 counterexample: on the documented example input the summary line is
swallowed into the pending error detail (error collection takes precedence
over summary recognition), so the failed test's single error message is not
the two detail lines alone. -/
theorem text_parser_example_message_includes_summary :
    parseOutput ["✅ testA", "❌ testB", "detail1", "detail2", "🎉 1/2 successful"]
      = { testModules :=
            [⟨"tests",
              [⟨"testA", "tests.testA", "passed", []⟩,
               ⟨"testB", "tests.testB", "failed",
                 [⟨"detail1\\ndetail2\\n🎉 1/2 successful"⟩]⟩]⟩]
          unhandledErrors := []
          reason := "failed" }
    ∧ ("detail1\\ndetail2\\n🎉 1/2 successful" : String) ≠ "detail1\\ndetail2" := by
  constructor
  · rfl
  · decide

/-- C3 amended: the example input yields exactly two test cases — `testA`
passed and `testB` failed with one error record — and reason `failed`, but
the error message joins (with a literal backslash-n) `detail1`, `detail2`
AND the summary line, because in the collection state the summary line is
treated as error detail rather than ending collection. -/
theorem text_parser_example_run :
    parseOutput ["✅ testA", "❌ testB", "detail1", "detail2", "🎉 1/2 successful"]
      = { testModules :=
            [⟨"tests",
              [⟨"testA", "tests.testA", "passed", []⟩,
               ⟨"testB", "tests.testB", "failed",
                 [⟨"detail1\\ndetail2\\n🎉 1/2 successful"⟩]⟩]⟩]
          unhandledErrors := []
          reason := "failed" } := by
  rfl

/-- C8: for every input line sequence with no test-glyph line but at least
one line matching the error pattern, the parser produces exactly one module
with the reserved id `compilation` holding exactly one failed test case
named `evaluation`, whose single error message contains an error-pattern
line of the input, and the overall reason is `failed`. -/
theorem error_line_synthesizes_compilation_module (lines : List String)
    (hg : ∀ l ∈ lines, glyphMatch l = none)
    (hnl : ∀ l ∈ lines, ∀ c ∈ l.data, ¬ c = '\n')
    (he : ∃ l ∈ lines, errorPattern l = true) :
    ∃ msg, parseOutput lines
        = { testModules := [⟨"compilation",
              [⟨"evaluation", "compilation.evaluation", "failed", [⟨msg⟩]⟩]⟩]
            unhandledErrors := []
            reason := "failed" }
        ∧ ∃ l ∈ lines, errorPattern l = true ∧ strContains msg l = true := by
  unfold parseOutput finalizeState
  dsimp only
  have h0 : InvC8 [] initState := by
    refine ⟨rfl, rfl, fun _ => ⟨rfl, rfl⟩, fun hh => ?_⟩
    exact absurd hh (by decide)
  have hinv : InvC8 lines (lines.foldl step initState) := by
    simpa using foldC8 lines hg h0
  set s := lines.foldl step initState with hs
  obtain ⟨hc1, hc2, hc3, hc4⟩ := hinv
  cases hht : s.hasTests
  · -- no error line reached the scanner: the whole-output fallback fires
    obtain ⟨hts, hmid⟩ := hc3 hht
    obtain ⟨l, hl, hep⟩ := he
    have hlines : lines ≠ [] := by
      intro hn
      rw [hn] at hl
      cases hl
    have hflush : flushPending s = s := by
      unfold flushPending
      rw [if_neg (by simp [hc1])]
    refine ⟨joinedMsg lines, ?_, l, hl, hep, ?_⟩
    · unfold fallbackAll
      rw [hflush]
      have hcond : s.hasTests = false ∧ lines ≠ [] := ⟨hht, hlines⟩
      rw [if_pos hcond]
      dsimp only
      rw [hts]
      rw [if_pos (by simp)]
      simp
    · unfold strContains joinedMsg
      apply decide_eq_true
      exact infix_dropTrailingNl (errorPattern_ne_nil hep) (hnl l hl) (mem_joinNl hl)
  · -- an error line produced the synthetic test during the scan
    obtain ⟨l, hl, hep, hts, hmid, hrs⟩ := hc4 hht
    have hflush : flushPending s = s := by
      unfold flushPending
      rw [if_neg (by simp [hc1])]
    refine ⟨l, ?_, l, hl, hep, ?_⟩
    · unfold fallbackAll
      rw [hflush]
      have hcond2 : ¬ (s.hasTests = false ∧ lines ≠ []) := by simp [hht]
      rw [if_neg hcond2]
      rw [hts, hmid, hrs]
      rw [if_pos (by simp)]
    · unfold strContains
      exact decide_eq_true (List.infix_refl _)

theorem error_line_synthesizes_compilation_module_witness :
    (∀ l ∈ ["error: syntax error, unexpected token"], glyphMatch l = none)
    ∧ (∀ l ∈ ["error: syntax error, unexpected token"], ∀ c ∈ l.data, ¬ c = '\n')
    ∧ (∃ l ∈ ["error: syntax error, unexpected token"], errorPattern l = true)
    ∧ (∃ msg, parseOutput ["error: syntax error, unexpected token"]
        = { testModules := [⟨"compilation",
              [⟨"evaluation", "compilation.evaluation", "failed", [⟨msg⟩]⟩]⟩]
            unhandledErrors := []
            reason := "failed" }
        ∧ ∃ l ∈ ["error: syntax error, unexpected token"],
            errorPattern l = true ∧ strContains msg l = true) :=
  ⟨by decide, by decide, by decide,
    error_line_synthesizes_compilation_module
      ["error: syntax error, unexpected token"] (by decide) (by decide) (by decide)⟩

end TddGuard
